import Mathlib

/-!
Verification development for the RLC Analyzer core
(`core/rlc_theory.py`, `core/analysis_reconstruction.py`,
`core/curve_fitting.py`).

The Python floating-point code is embedded shallowly over the real
numbers: every numpy array operation in the source is pointwise, so
curves are embedded as functions of the frequency `f : ℝ`, and the
corner sweeps (explicit nested `for` loops over the `1 ± tol` factors
in the source) are embedded as folds over the corresponding literal
lists.  Machine epsilon guards appearing in the source (`1e-15`,
`1e-30`) are kept as exact rational constants.
-/

namespace RLCAnalyzer

noncomputable section

open Real List

/-- The `1e-15` guard added to the capacitive-reactance denominator in
`get_transfer_function` (rlc_theory.py line 98). -/
def epsTransfer : ℝ := 1 / 10 ^ 15

/-- The `1e-30` guard used in the private helper `_transfer_gain`
(rlc_theory.py line 283). -/
def epsGain : ℝ := 1 / 10 ^ 30

/-- Embedding of `get_transfer_function(f, R, L, C)` (rlc_theory.py
lines 93-105), pointwise at one frequency `f`:
`Xc = 1/(w*C + 1e-15)`, `Xl = w*L`, result `R / sqrt(R^2 + (Xl-Xc)^2)`. -/
def get_transfer_function (f R L C : ℝ) : ℝ :=
  let w := 2 * π * f
  let Xc := 1 / (w * C + epsTransfer)
  let Xl := w * L
  let Z := Real.sqrt (R ^ 2 + (Xl - Xc) ^ 2)
  R / Z

/-- Embedding of the private helper `_transfer_gain(freqs, R, L, C)`
(rlc_theory.py lines 276-286), pointwise at one frequency; identical to
`get_transfer_function` except for the `1e-30` guard. -/
def transfer_gain (f R L C : ℝ) : ℝ :=
  let w := 2 * π * f
  let Xc := 1 / (w * C + epsGain)
  let Xl := w * L
  let Z := Real.sqrt (R ^ 2 + (Xl - Xc) ^ 2)
  R / Z

/-- Embedding of `calculate_f1_f2(R, L, C)` (rlc_theory.py lines
108-121): half-power frequencies from the damped-oscillator roots. -/
def calculate_f1_f2 (R L C : ℝ) : ℝ × ℝ :=
  let alpha := R / (2 * L)
  let omega0_sq := 1 / (L * C)
  let omega1 := -alpha + Real.sqrt (alpha ^ 2 + omega0_sq)
  let omega2 := alpha + Real.sqrt (alpha ^ 2 + omega0_sq)
  (omega1 / (2 * π), omega2 / (2 * π))

/-- The metric record returned by the metric computations of
`rlc_theory.py` (dict with keys f0, Q, BW, f1, f2). -/
structure Metrics where
  f0 : ℝ
  Q : ℝ
  BW : ℝ
  f1 : ℝ
  f2 : ℝ


/-- Embedding of `calculate_nominal_metrics(R_nom, L_nom, C_nom)`
(rlc_theory.py lines 124-192).  Note: the Python function performs no
input validation whatsoever; it computes the formulas directly. -/
def calculate_nominal_metrics (R_nom L_nom C_nom : ℝ) : Metrics :=
  let w0 := 1 / Real.sqrt (L_nom * C_nom)
  let f0 := w0 / (2 * π)
  let Q := (1 / R_nom) * Real.sqrt (L_nom / C_nom)
  let p := calculate_f1_f2 R_nom L_nom C_nom
  { f0 := f0, Q := Q, BW := p.2 - p.1, f1 := p.1, f2 := p.2 }

/-- Embedding of the private helper `_compute_metrics(R, L, C)`
(rlc_theory.py lines 289-317); same formulas as
`calculate_nominal_metrics`, written inline in the source. -/
def compute_metrics (R L C : ℝ) : Metrics :=
  let w0 := 1 / Real.sqrt (L * C)
  let f0 := w0 / (2 * π)
  let Q := (1 / R) * Real.sqrt (L / C)
  let alpha := R / (2 * L)
  let omega0_sq := 1 / (L * C)
  let omega1 := -alpha + Real.sqrt (alpha ^ 2 + omega0_sq)
  let omega2 := alpha + Real.sqrt (alpha ^ 2 + omega0_sq)
  let f1 := omega1 / (2 * π)
  let f2 := omega2 / (2 * π)
  { f0 := f0, Q := Q, BW := f2 - f1, f1 := f1, f2 := f2 }

/-- The tagged component kind used by `solve_rlc_from_f0_Q`
(`known_type` is the string "R", "L" or "C" in the source, upper-cased
before dispatch; any other string raises, embedded by the absence of a
fourth constructor together with the `ValueError` branch noted below). -/
inductive KnownType where
  | R
  | L
  | C
deriving DecidableEq

/-- The result dict of `solve_rlc_from_f0_Q`. -/
structure SolvedRLC where
  R : ℝ
  L : ℝ
  C : ℝ
  f0_calc : ℝ
  Q_calc : ℝ


/-- The tail of `solve_rlc_from_f0_Q` (analysis_reconstruction.py
lines 84-97): final `R <= 0` validation, then recomputation of f0 and
Q from the resolved triple. -/
def solveFinish (R L C : ℝ) : Except String SolvedRLC :=
  if R ≤ 0 then .error "R calculado nao fisico" else
  .ok { R := R, L := L, C := C
        f0_calc := 1 / (2 * π * Real.sqrt (L * C))
        Q_calc := (1 / R) * Real.sqrt (L / C) }

/-- Embedding of `solve_rlc_from_f0_Q(f0_hz, Q, known_type,
known_value_SI)` (analysis_reconstruction.py lines 21-97): input
validation, per-branch resolution of the two unknown components, and
the self-consistency recomputation. -/
def solve_rlc_from_f0_Q (f0_hz Q : ℝ) (known_type : KnownType)
    (known_value_SI : ℝ) : Except String SolvedRLC :=
  if f0_hz ≤ 0 then .error "f0 invalido para projeto inverso" else
  if Q ≤ 0 then .error "Q invalido para projeto inverso" else
  if known_value_SI ≤ 0 then .error "valor do componente fixo deve ser positivo" else
  let omega0 := 2 * π * f0_hz
  match known_type with
  | .R =>
      let R := known_value_SI
      let p := 1 / omega0 ^ 2
      let sqrt_p := Real.sqrt p
      let L := Q * R * sqrt_p
      let C := sqrt_p / (Q * R)
      solveFinish R L C
  | .L =>
      let L := known_value_SI
      let C := 1 / (omega0 ^ 2 * L)
      if C ≤ 0 then .error "C calculado nao fisico" else
      let R := (1 / Q) * Real.sqrt (L / C)
      solveFinish R L C
  | .C =>
      let C := known_value_SI
      let L := 1 / (omega0 ^ 2 * C)
      if L ≤ 0 then .error "L calculado nao fisico" else
      let R := (1 / Q) * Real.sqrt (L / C)
      solveFinish R L C

/-- Pair `(min, max)` ranges for the five metrics, the return shape of
`calculate_min_max_metrics` and of the `ranges` output of
`simulate_response_with_tolerances`. -/
structure MetricRanges where
  f0 : ℝ × ℝ
  Q : ℝ × ℝ
  BW : ℝ × ℝ
  f1 : ℝ × ℝ
  f2 : ℝ × ℝ

/-- `np.min` over a list (numpy raises on an empty array; every use
below is on a provably nonempty list, the `[]` case is junk). -/
def npMin : List ℝ → ℝ
  | [] => 0
  | x :: xs => xs.foldl min x

/-- `np.max` over a list (same remark as `npMin`). -/
def npMax : List ℝ → ℝ
  | [] => 0
  | x :: xs => xs.foldl max x

/-- The 8 tolerance-corner component triples visited, in order, by the
triple-nested loops of `calculate_min_max_metrics` (rlc_theory.py lines
245-254) and of `simulate_response_with_tolerances` (lines 453-462):
`R ∈ R_nom * {1-tol_R, 1+tol_R}` etc. -/
def cornerTriples (R_nom L_nom C_nom tol_R tol_L tol_C : ℝ) :
    List (ℝ × ℝ × ℝ) :=
  [1 - tol_R, 1 + tol_R].flatMap fun fr =>
    [1 - tol_L, 1 + tol_L].flatMap fun fl =>
      [1 - tol_C, 1 + tol_C].map fun fc =>
        (R_nom * fr, L_nom * fl, C_nom * fc)

/-- Embedding of `calculate_min_max_metrics` (rlc_theory.py lines
195-274): metrics of ALL 8 corners (the loop body, lines 256-266, has
no degenerate-corner guard and repeats the formulas of
`calculate_nominal_metrics` verbatim), then per-metric `(np.min,
np.max)`. -/
def calculate_min_max_metrics (R_nom L_nom C_nom tol_R tol_L tol_C : ℝ) :
    MetricRanges :=
  let ms := (cornerTriples R_nom L_nom C_nom tol_R tol_L tol_C).map
    fun t => calculate_nominal_metrics t.1 t.2.1 t.2.2
  { f0 := (npMin (ms.map Metrics.f0), npMax (ms.map Metrics.f0))
    Q := (npMin (ms.map Metrics.Q), npMax (ms.map Metrics.Q))
    BW := (npMin (ms.map Metrics.BW), npMax (ms.map Metrics.BW))
    f1 := (npMin (ms.map Metrics.f1), npMax (ms.map Metrics.f1))
    f2 := (npMin (ms.map Metrics.f2), npMax (ms.map Metrics.f2)) }

open scoped Classical in
/-- Step 2 of `simulate_response_with_tolerances` (rlc_theory.py lines
421-434): the effective frequency range, as a function of the nominal
`f0` (computed in step 1) and the two optional caller bounds. -/
def freqRangeEff (f0 : ℝ) (freq_min freq_max : Option ℝ) : ℝ × ℝ :=
  match freq_min, freq_max with
  | some fmin, some fmax =>
      let fmin_eff := if fmin ≤ 0 then (if 0 < f0 then f0 / 10 else 10) else fmin
      let fmax_eff := if fmax ≤ fmin_eff then fmin_eff * 10 else fmax
      (fmin_eff, fmax_eff)
  | _, _ =>
      ((if 0 < f0 then f0 / 10 else 10), (if 0 < f0 then f0 * 10 else 10 ^ 6))

/-- The effective frequency range of a `simulate_response_with_tolerances`
call: step 1 computes `metrics_nom = _compute_metrics(R_nom, L_nom,
C_nom)` and step 2 applies the range policy to `metrics_nom["f0"]`. -/
def simulateFreqRange (R_nom L_nom C_nom : ℝ) (freq_min freq_max : Option ℝ) :
    ℝ × ℝ :=
  freqRangeEff (compute_metrics R_nom L_nom C_nom).f0 freq_min freq_max

open scoped Classical in
/-- Step 4 of `simulate_response_with_tolerances` (rlc_theory.py lines
450-471), metrics part: the per-corner metric accumulator lists.  A
corner with `R <= 0 or L <= 0 or C <= 0` is skipped by `continue`
(line 465-466); all five per-key lists grow in lockstep, so they are
embedded as one list of `Metrics` records. -/
def simulateMetricsList (R_nom L_nom C_nom tol_R tol_L tol_C : ℝ) :
    List Metrics :=
  (cornerTriples R_nom L_nom C_nom tol_R tol_L tol_C).foldl
    (fun acc t =>
      if t.1 ≤ 0 ∨ t.2.1 ≤ 0 ∨ t.2.2 ≤ 0 then acc
      else acc ++ [compute_metrics t.1 t.2.1 t.2.2])
    []

open scoped Classical in
/-- Step 5 of `simulate_response_with_tolerances` (rlc_theory.py lines
480-487): the `ranges` dict, `(nominal, nominal)` when the accumulator
list is empty, else `(np.min, np.max)` of the list. -/
def simulateMetricRanges (R_nom L_nom C_nom tol_R tol_L tol_C : ℝ) :
    MetricRanges :=
  let nom := compute_metrics R_nom L_nom C_nom
  let ms := simulateMetricsList R_nom L_nom C_nom tol_R tol_L tol_C
  let range := fun (proj : Metrics → ℝ) =>
    let arr := ms.map proj
    if arr.length = 0 then (proj nom, proj nom) else (npMin arr, npMax arr)
  { f0 := range Metrics.f0, Q := range Metrics.Q, BW := range Metrics.BW
    f1 := range Metrics.f1, f2 := range Metrics.f2 }

/-- The nominal output-voltage curve of step 3 of
`simulate_response_with_tolerances` (rlc_theory.py lines 442-444),
pointwise at frequency `f`. -/
def simulateNomCurve (R_nom L_nom C_nom V_in_plot f : ℝ) : ℝ :=
  transfer_gain f R_nom L_nom C_nom * V_in_plot

open scoped Classical in
/-- The lower envelope of `simulate_response_with_tolerances`
(rlc_theory.py lines 446-478), pointwise at frequency `f`: initialized
with the nominal curve, then `np.minimum` against every surviving
corner curve (degenerate corners skipped by the same guard as the
metric lists). -/
def simulateMinCurve (R_nom L_nom C_nom tol_R tol_L tol_C V_in_plot f : ℝ) :
    ℝ :=
  (cornerTriples R_nom L_nom C_nom tol_R tol_L tol_C).foldl
    (fun acc t =>
      if t.1 ≤ 0 ∨ t.2.1 ≤ 0 ∨ t.2.2 ≤ 0 then acc
      else min acc (transfer_gain f t.1 t.2.1 t.2.2 * V_in_plot))
    (simulateNomCurve R_nom L_nom C_nom V_in_plot f)

open scoped Classical in
/-- The upper envelope of `simulate_response_with_tolerances`, pointwise
at frequency `f`; dual of `simulateMinCurve` with `np.maximum`. -/
def simulateMaxCurve (R_nom L_nom C_nom tol_R tol_L tol_C V_in_plot f : ℝ) :
    ℝ :=
  (cornerTriples R_nom L_nom C_nom tol_R tol_L tol_C).foldl
    (fun acc t =>
      if t.1 ≤ 0 ∨ t.2.1 ≤ 0 ∨ t.2.2 ≤ 0 then acc
      else max acc (transfer_gain f t.1 t.2.1 t.2.2 * V_in_plot))
    (simulateNomCurve R_nom L_nom C_nom V_in_plot f)

/-- The E12-style mantissa list of `design_rlc_for_target_f0`
(rlc_theory.py line 553). -/
def E12 : List ℝ := [1, 1.2, 1.5, 1.8, 2.2, 2.7, 3.3, 3.9, 4.7, 5.6, 6.8, 8.2]

/-- Default L candidate grid (rlc_theory.py lines 555-561): E12 values
over the decades 10^-4, 10^-3, 10^-2 H. -/
def defaultLGrid : List ℝ :=
  ([-4, -3, -2] : List ℤ).flatMap fun d => E12.map fun v => v * (10 : ℝ) ^ d

/-- Default C candidate grid (rlc_theory.py lines 563-569): E12 values
over the decades 10^-10 ... 10^-6 F. -/
def defaultCGrid : List ℝ :=
  ([-10, -9, -8, -7, -6] : List ℤ).flatMap fun d => E12.map fun v => v * (10 : ℝ) ^ d

/-- One entry of the result list of `design_rlc_for_target_f0`
(rlc_theory.py lines 605-613); `Q` is `None` when no positive
`R_fixed` was supplied. -/
structure DesignCandidate where
  L_H : ℝ
  C_F : ℝ
  f0_calc_Hz : ℝ
  error_pct : ℝ
  Q : Option ℝ

open scoped Classical in
/-- The body of the double loop of `design_rlc_for_target_f0`
(rlc_theory.py lines 585-613) for one `(L, C)` pair: `none` embeds
`continue`.  Over the reals `f0_calc` is always finite, so the
`np.isfinite` half of the guard on line 592 is vacuous and only the
`f0_calc <= 0` half remains. -/
def designCandidate (target_f0_hz : ℝ) (R_fixed max_error_pct : Option ℝ)
    (L C : ℝ) : Option DesignCandidate :=
  let f0_calc := 1 / (2 * π * Real.sqrt (L * C))
  if f0_calc ≤ 0 then none
  else
    let error_pct := |f0_calc - target_f0_hz| / target_f0_hz * 100
    if max_error_pct.elim False (fun m => m < error_pct) then none
    else
      let Q : Option ℝ := match R_fixed with
        | some r => if 0 < r then some ((1 / r) * Real.sqrt (L / C)) else none
        | none => none
      some { L_H := L, C_F := C, f0_calc_Hz := f0_calc
             error_pct := error_pct, Q := Q }

open scoped Classical in
/-- The Python sort key of `design_rlc_for_target_f0` (rlc_theory.py
lines 621-623): ascending lexicographic order on
`(error_pct, -(Q or 0.0))`. -/
def designLE (a b : DesignCandidate) : Bool :=
  decide (a.error_pct < b.error_pct ∨
    (a.error_pct = b.error_pct ∧ -(a.Q.getD 0) ≤ -(b.Q.getD 0)))

open scoped Classical in
/-- Embedding of `design_rlc_for_target_f0` (rlc_theory.py lines
506-626): validation, default grids, positivity filtering of the
grids, the candidate double loop, the stable sort by
`(error_pct, -Q)` and the truncation to `max_results`.  The source's
early `return []` for an empty result list coincides with sorting and
truncating the empty list. -/
def design_rlc_for_target_f0 (target_f0_hz : ℝ) (R_fixed : Option ℝ)
    (L_candidates_h C_candidates_f : Option (List ℝ)) (max_results : ℕ)
    (max_error_pct : Option ℝ) : Except String (List DesignCandidate) :=
  if target_f0_hz ≤ 0 then .error "target_f0_hz deve ser maior que zero" else
  let Lcand := (L_candidates_h.getD defaultLGrid).filter fun x => decide (0 < x)
  let Ccand := (C_candidates_f.getD defaultCGrid).filter fun x => decide (0 < x)
  if Lcand.isEmpty || Ccand.isEmpty then
    .error "listas de candidatos L e C vazias apos filtragem"
  else
    let results := Lcand.flatMap fun L => Ccand.filterMap fun C =>
      designCandidate target_f0_hz R_fixed max_error_pct L C
    .ok ((results.mergeSort designLE).take max_results)

/-- Model of an IEEE-754 double as consumed by `fit_bandpass_rlc`:
either a finite value (every finite double is a real number) or one of
the non-finite payloads recognized by `np.isfinite`. -/
inductive FloatVal where
  | fin (x : ℝ)
  | nan
  | inf
  | ninf

/-- `np.isfinite` on the float model. -/
def FloatVal.isFinite : FloatVal → Bool
  | fin _ => true
  | _ => false

open scoped Classical in
/-- The IEEE comparison `v > 0` on the float model (`NaN > 0` is
false, `inf > 0` is true). -/
def FloatVal.posB : FloatVal → Bool
  | fin x => decide (0 < x)
  | nan => false
  | inf => true
  | ninf => false

/-- Real value of a float-model element; only ever applied to finite
survivors of the validity filter. -/
def FloatVal.val : FloatVal → ℝ
  | fin x => x
  | _ => 0

/-- The validity mask of `fit_bandpass_rlc` (curve_fitting.py line
109): both coordinates finite and strictly positive. -/
def validPoint (p : FloatVal × FloatVal) : Bool :=
  p.1.isFinite && p.2.isFinite && p.1.posB && p.2.posB

/-- First index of the maximum of a list: embedding of `np.nanargmax`
on all-finite data (first occurrence wins, as in numpy). -/
def argmaxFrom : ℕ → ℕ → ℝ → List ℝ → ℕ
  | _, besti, _, [] => besti
  | i, besti, bestv, x :: xs =>
      if bestv < x then argmaxFrom (i + 1) i x xs
      else argmaxFrom (i + 1) besti bestv xs

/-- `np.nanargmax` over a list (numpy raises on an empty array; every
use below is on a provably nonempty list). -/
def nanargmax : List ℝ → ℕ
  | [] => 0
  | x :: xs => argmaxFrom 1 0 x xs

open scoped Classical in
/-- Embedding of `_initial_guess(freqs, gains)` (curve_fitting.py lines
45-71): peak location, then Q estimated from the `gain >= A0/sqrt 2`
bandwidth, clamped to `[0.1, 200]`. -/
def initial_guess (freqs gains : List ℝ) : ℝ × ℝ × ℝ :=
  let idx_peak := nanargmax gains
  let A0 := gains.getD idx_peak 0
  let f0_0 := freqs.getD idx_peak 0
  let target := A0 / Real.sqrt 2
  let f_bw := ((freqs.zip gains).filter fun p => decide (target ≤ p.2)).map Prod.fst
  let Q0 :=
    if 2 ≤ f_bw.length then
      let f1 := f_bw.headD 0
      let f2 := f_bw.getLastD 0
      let BW := max (f2 - f1) (1 / 10 ^ 9)
      max (f0_0 / BW) (1 / 10)
    else 1
  (A0, f0_0, min (max Q0 (1 / 10)) 200)

/-- `np.finfo(float).eps`, the guard value of `_bandpass_model`
(curve_fitting.py line 41). -/
def epsMachine : ℝ := (2 : ℝ) ^ (-(52 : ℤ))

open scoped Classical in
/-- Embedding of `_bandpass_model(f, A, f0, Q)` (curve_fitting.py lines
26-42), pointwise at one frequency. -/
def bandpass_model (f A f0 Q : ℝ) : ℝ :=
  let x := f / f0
  let num := x / Q
  let den := Real.sqrt ((1 - x ^ 2) ^ 2 + (x / Q) ^ 2)
  let den := if den = 0 then epsMachine else den
  A * num / den

/-- `np.logspace(a, b, n)`: `n` log-spaced samples from `10^a` to
`10^b` (for `n = 1` numpy returns the single sample `10^a`, which the
`0 / 0 = 0` convention below reproduces). -/
def logspace (a b : ℝ) (n : ℕ) : List ℝ :=
  (List.range n).map fun i => (10 : ℝ) ^ (a + (b - a) * i / ((n : ℝ) - 1))

/-- The result dict of `fit_bandpass_rlc`. -/
structure FitResult where
  A : ℝ
  f0 : ℝ
  Q : ℝ
  freq_smooth : List ℝ
  gain_smooth : List ℝ

/-- Embedding of `fit_bandpass_rlc(freqs, gains, n_points)`
(curve_fitting.py lines 74-150).  The two parallel input arrays are
embedded as one list of pairs.  The SciPy `curve_fit` refinement is an
external library call; the embedding takes the in-source fallback
branch (curve_fitting.py lines 133-135, SciPy unavailable), which uses
the initial guess as the fitted parameters — the branch choice never
affects whether a result is returned, only the three fitted values. -/
def fit_bandpass_rlc (pts : List (FloatVal × FloatVal)) (n_points : ℕ) :
    Option FitResult :=
  let valid := pts.filter validPoint
  if valid.length < 5 then none
  else
    let f := valid.map fun p => p.1.val
    let g := valid.map fun p => p.2.val
    let guess := initial_guess f g
    let A_opt := guess.1
    let f0_opt := guess.2.1
    let Q_opt := guess.2.2
    let f_min := npMin f
    let f_max := npMax f
    let f_smooth := logspace (Real.logb 10 f_min) (Real.logb 10 f_max) n_points
    some { A := A_opt, f0 := f0_opt, Q := Q_opt
           freq_smooth := f_smooth
           gain_smooth := f_smooth.map fun fr => bandpass_model fr A_opt f0_opt Q_opt }

/-- The optional stored-samples block of a persisted parameter record
(`params["curve_points"]`), with missing keys defaulting to `[]` as in
`curve_points.get(..., [])`. -/
structure CurvePoints where
  freqs_Hz : List ℝ
  gain_norm : List ℝ

/-- The optional saved-metrics block of a persisted parameter record:
each key may be absent or unparseable (`none`, the result of
`_safe_float` on it) or a parsed float. -/
structure SavedMetrics where
  f0 : Option ℝ
  Q : Option ℝ
  BW : Option ℝ
  f1 : Option ℝ
  f2 : Option ℝ

/-- The empty dict used for `params.get("metrics") or {}`. -/
def emptySavedMetrics : SavedMetrics :=
  { f0 := none, Q := none, BW := none, f1 := none, f2 := none }

/-- A persisted parameter record as consumed by
`reconstruct_theoretical_curve`.  Scalar fields are the result of
`_safe_float` on the raw stored value: `none` when the key is missing
or unparseable. -/
structure StoredParams where
  curve_points : Option CurvePoints
  metrics : Option SavedMetrics
  R : Option ℝ
  R_unit : Option String
  L : Option ℝ
  L_unit : Option String
  C : Option ℝ
  C_unit : Option String
  R_tol : Option ℝ
  L_tol : Option ℝ
  C_tol : Option ℝ
  V_in : Option ℝ
  freq_range : Option (Option ℝ × Option ℝ)

/-- The unit-multiplier tables of `core/units.py` flattened in lookup
order (resistor, inductor, capacitor, frequency). -/
def unitTable : List (String × ℝ) :=
  [("Ω", 1), ("kΩ", 1000), ("MΩ", 10 ^ 6),
   ("H", 1), ("mH", 1 / 10 ^ 3), ("µH", 1 / 10 ^ 6), ("nH", 1 / 10 ^ 9),
   ("F", 1), ("mF", 1 / 10 ^ 3), ("µF", 1 / 10 ^ 6), ("nF", 1 / 10 ^ 9),
   ("pF", 1 / 10 ^ 12),
   ("Hz", 1), ("kHz", 1000), ("MHz", 10 ^ 6), ("GHz", 10 ^ 9)]

/-- Embedding of `get_multiplier(unit)` (units.py lines 63-69):
lookup across the four tables, defaulting to `1.0`. -/
def get_multiplier (unit : String) : ℝ :=
  ((unitTable.find? fun p => p.1 == unit).map Prod.snd).getD 1

/-- The log-spaced frequency list generated by
`simulate_response_with_tolerances` (rlc_theory.py lines 436-440). -/
def simulateFreqs (R_nom L_nom C_nom : ℝ) (freq_min freq_max : Option ℝ)
    (num_points : ℕ) : List ℝ :=
  let rg := simulateFreqRange R_nom L_nom C_nom freq_min freq_max
  logspace (Real.logb 10 rg.1) (Real.logb 10 rg.2) num_points

open scoped Classical in
/-- Path 2 of `reconstruct_theoretical_curve`
(analysis_reconstruction.py lines 141-213): parse the nominal values,
tolerances, input voltage and optional frequency range from the
record, re-simulate, normalize the nominal gain curve to its own peak,
and overlay any saved metric values on the freshly computed ones. -/
def reconstructFallback (params : StoredParams) (num_points : Option ℕ) :
    (List ℝ × List ℝ) × SavedMetrics :=
  let R_nom := (params.R.getD 0) * get_multiplier (params.R_unit.getD "Ω")
  let L_nom := (params.L.getD 0) * get_multiplier (params.L_unit.getD "H")
  let C_nom := (params.C.getD 0) * get_multiplier (params.C_unit.getD "F")
  let V0 := params.V_in.getD 1
  let V_in_plot := if V0 ≤ 0 then 1 else V0
  let fr := params.freq_range.getD (none, none)
  let f_min0 := fr.1.bind fun x => if x ≤ 0 then none else some x
  let f_max0 := fr.2.bind fun x => if x ≤ 0 then none else some x
  let fminmax : Option ℝ × Option ℝ :=
    match f_min0, f_max0 with
    | some a, some b => if b ≤ a then (none, none) else (some a, some b)
    | a, b => (a, b)
  let n := num_points.getD 500
  let freqs := simulateFreqs R_nom L_nom C_nom fminmax.1 fminmax.2 n
  let nom_curve := freqs.map fun f => transfer_gain f R_nom L_nom C_nom * V_in_plot
  let gain := nom_curve.map fun v => v / V_in_plot
  let max_gain := if gain.length = 0 then 0 else npMax gain
  let gain_norm := if 0 < max_gain then gain.map fun v => v / max_gain else gain
  let nom := compute_metrics R_nom L_nom C_nom
  let saved := params.metrics.getD emptySavedMetrics
  (⟨freqs, gain_norm⟩,
   { f0 := some (saved.f0.getD nom.f0)
     Q := some (saved.Q.getD nom.Q)
     BW := some (saved.BW.getD nom.BW)
     f1 := some (saved.f1.getD nom.f1)
     f2 := some (saved.f2.getD nom.f2) })

open scoped Classical in
/-- Embedding of `reconstruct_theoretical_curve(params, num_points)`
(analysis_reconstruction.py lines 99-213).  Path 1 returns the stored
sample arrays verbatim together with the `_safe_float` parse of each
saved metric key; otherwise path 2 re-simulates.  (The `try` around
path 1 can only fire on malformed array payloads, which the typed
record model excludes.) -/
def reconstruct_theoretical_curve (params : StoredParams)
    (num_points : Option ℕ) : (List ℝ × List ℝ) × SavedMetrics :=
  match params.curve_points with
  | some cp =>
      if 0 < cp.freqs_Hz.length ∧ cp.gain_norm.length = cp.freqs_Hz.length then
        (⟨cp.freqs_Hz, cp.gain_norm⟩, params.metrics.getD emptySavedMetrics)
      else reconstructFallback params num_points
  | none => reconstructFallback params num_points

/-!
## Theorems
-/

/-- C3 counterexample: `calculate_nominal_metrics` performs no input
validation.  Called with the non-positive resistance `R = -1` (and
`L = C = 1`) it does not fail: it enters the formulas and returns the
ordinary finite value `Q = -1` (and `f0 = 1/(2π)`), refuting the claim
that every call with `R <= 0` fails with an `InvalidComponentValue`
error before entering the formulas. -/
theorem C3_counterexample :
    (calculate_nominal_metrics (-1) 1 1).Q = -1 ∧
    (calculate_nominal_metrics (-1) 1 1).f0 = 1 / (2 * π) := by
  norm_num [calculate_nominal_metrics, Real.sqrt_one]

/-- C3 amended: the metrics computation has no validation: for any
`R < 0` and `L, C > 0` it silently returns metrics with a negative
quality factor `Q = (1/R)·sqrt(L/C) < 0` instead of failing. -/
theorem C3_no_validation (R L C : ℝ) (hR : R < 0) (hL : 0 < L) (hC : 0 < C) :
    (calculate_nominal_metrics R L C).Q < 0 := by
  have h2 : 0 < Real.sqrt (L / C) := Real.sqrt_pos.mpr (div_pos hL hC)
  have h3 : 1 / R < 0 := one_div_neg.mpr hR
  simpa [calculate_nominal_metrics] using mul_neg_of_neg_of_pos h3 h2

/-- C3 witness: the amended statement at `R = -1`, `L = C = 1`. -/
theorem C3_no_validation_witness :
    (calculate_nominal_metrics (-1) 1 1).Q < 0 :=
  C3_no_validation (-1) 1 1 (by norm_num) (by norm_num) (by norm_num)

/-- C2 counterexample: calling the simulator range policy with
`freq_min = 1000`, `freq_max = 500` (min ≥ max) and nominal components
`R = L = C = 1` yields the effective range `(1000, 10000)` — it keeps
the caller's lower bound and stretches the upper bound to ten times
it — and this is NOT the automatic decade-around-f0 range, whose lower
end `f0/10 = 1/(20π)` is below 1. -/
theorem C2_counterexample :
    simulateFreqRange 1 1 1 (some 1000) (some 500) = (1000, 10000) ∧
    simulateFreqRange 1 1 1 (some 1000) (some 500) ≠
      ((compute_metrics 1 1 1).f0 / 10, (compute_metrics 1 1 1).f0 * 10) := by
  have hval : simulateFreqRange 1 1 1 (some 1000) (some 500) = (1000, 10000) := by
    simp only [simulateFreqRange, freqRangeEff]
    norm_num
  refine ⟨hval, ?_⟩
  intro hcontra
  rw [hval] at hcontra
  have hf0 : (compute_metrics 1 1 1).f0 = 1 / (2 * π) := by
    norm_num [compute_metrics, Real.sqrt_one]
  have h1 : ((1000 : ℝ), (10000 : ℝ)).1 = (1 : ℝ) / (2 * π) / 10 := by
    rw [hcontra, hf0]
  have hπ : (3 : ℝ) < π := Real.pi_gt_three
  have : (1 : ℝ) / (2 * π) / 10 < 1 := by
    rw [div_div]
    have h20 : (1 : ℝ) < 2 * π * 10 := by nlinarith
    have hpos : (0 : ℝ) < 2 * π * 10 := by nlinarith
    exact (div_lt_one hpos).mpr h20
  simp only [Prod.fst] at h1
  nlinarith [h1]

/-- C2 amended: when both bounds are supplied with `0 < freq_min` and
`freq_max ≤ freq_min`, the effective sweep range of
`simulate_response_with_tolerances` is `(freq_min, freq_min * 10)` —
the caller's lower bound with the upper bound forced one decade above
it (not the decade-around-f0 automatic range) — and this range is
never inverted or empty. -/
theorem C2_inverted_bounds (R L C fmin fmax : ℝ)
    (hmin : 0 < fmin) (hle : fmax ≤ fmin) :
    simulateFreqRange R L C (some fmin) (some fmax) = (fmin, fmin * 10) ∧
    fmin < fmin * 10 := by
  constructor
  · simp only [simulateFreqRange, freqRangeEff]
    rw [if_neg (by linarith), if_pos (by linarith)]
  · linarith

/-- C2 witness: the amended statement at `R = L = C = 1`,
`freq_min = 1000`, `freq_max = 500`. -/
theorem C2_inverted_bounds_witness :
    simulateFreqRange 1 1 1 (some 1000) (some 500) = (1000, 1000 * 10) ∧
    (1000 : ℝ) < 1000 * 10 :=
  C2_inverted_bounds 1 1 1 1000 500 (by norm_num) (by norm_num)

/-- C7: `fit_bandpass_rlc` returns `none` (a normal no-result outcome,
not an exception) exactly when fewer than 5 input points survive the
finite-and-strictly-positive validity filter. -/
theorem C7_insufficient_data (pts : List (FloatVal × FloatVal)) (n : ℕ) :
    fit_bandpass_rlc pts n = none ↔ (pts.filter validPoint).length < 5 := by
  by_cases h : (pts.filter validPoint).length < 5
  · simp [fit_bandpass_rlc, h]
  · simp [fit_bandpass_rlc, h]

/-- C9: whenever the stored record carries curve points with a
non-empty frequency list and a gain list of equal length,
`reconstruct_theoretical_curve` returns exactly those stored lists,
paired with the saved metrics record (each missing key staying
`none`); consequently the result is the same on every call and is
independent of every other field of the record — in particular of the
nominal R/L/C fields, however corrupted. -/
theorem C9_saved_samples_verbatim (params params' : StoredParams)
    (num_points : Option ℕ) (cp : CurvePoints)
    (hcp : params.curve_points = some cp)
    (hlen : 0 < cp.freqs_Hz.length)
    (heq : cp.gain_norm.length = cp.freqs_Hz.length)
    (hcp2 : params'.curve_points = params.curve_points)
    (hm2 : params'.metrics = params.metrics) :
    reconstruct_theoretical_curve params num_points =
      (⟨cp.freqs_Hz, cp.gain_norm⟩, params.metrics.getD emptySavedMetrics) ∧
    reconstruct_theoretical_curve params' num_points =
      reconstruct_theoretical_curve params num_points := by
  have main : ∀ q : StoredParams, q.curve_points = some cp →
      reconstruct_theoretical_curve q num_points =
        (⟨cp.freqs_Hz, cp.gain_norm⟩, q.metrics.getD emptySavedMetrics) := by
    intro q hq
    simp only [reconstruct_theoretical_curve, hq]
    rw [if_pos ⟨hlen, heq⟩]
  refine ⟨main params hcp, ?_⟩
  rw [main params hcp, main params' (hcp2.trans hcp), hm2]

/-- C9 witness: two concrete records sharing the same single stored
sample point and absent metrics block but with differently corrupted
nominal `R` fields reconstruct to the same verbatim stored arrays. -/
theorem C9_saved_samples_verbatim_witness :
    reconstruct_theoretical_curve
      { curve_points := some ⟨[1], [2]⟩, metrics := none
        R := some (-7), R_unit := none, L := none, L_unit := none
        C := none, C_unit := none, R_tol := none, L_tol := none
        C_tol := none, V_in := none, freq_range := none } none =
      (⟨[1], [2]⟩, emptySavedMetrics) ∧
    reconstruct_theoretical_curve
      { curve_points := some ⟨[1], [2]⟩, metrics := none
        R := some 99, R_unit := none, L := none, L_unit := none
        C := none, C_unit := none, R_tol := none, L_tol := none
        C_tol := none, V_in := none, freq_range := none } none =
      reconstruct_theoretical_curve
        { curve_points := some ⟨[1], [2]⟩, metrics := none
          R := some (-7), R_unit := none, L := none, L_unit := none
          C := none, C_unit := none, R_tol := none, L_tol := none
          C_tol := none, V_in := none, freq_range := none } none :=
  C9_saved_samples_verbatim _ _ none ⟨[1], [2]⟩ rfl (by norm_num) (by norm_num)
    rfl rfl

/-- A fold whose body skips elements satisfying `p` equals the fold
over the list filtered by `¬ p`: the general shape of the
`continue`-guarded corner loops. -/
theorem foldl_skip_eq_foldl_filter {α β : Type} (p : α → Prop)
    [DecidablePred p] (g : β → α → β) :
    ∀ (l : List α) (init : β),
      l.foldl (fun acc t => if p t then acc else g acc t) init =
        (l.filter fun t => decide ¬ p t).foldl g init := by
  intro l
  induction l with
  | nil => intro init; simp
  | cons x xs ih =>
      intro init
      by_cases h : p x <;> simp [List.filter_cons, h, ih]

/-- A fold that appends `h t` for the elements not skipped equals
`map h` of the filtered list: the shape of the metric accumulator
loop. -/
theorem foldl_skip_append_eq_map {α β : Type} (p : α → Prop)
    [DecidablePred p] (h : α → β) :
    ∀ (l : List α) (init : List β),
      l.foldl (fun acc t => if p t then acc else acc ++ [h t]) init =
        init ++ (l.filter fun t => decide ¬ p t).map h := by
  intro l
  induction l with
  | nil => intro init; simp
  | cons x xs ih =>
      intro init
      by_cases hx : p x <;> simp [List.filter_cons, hx, ih]

/-- C4 counterexample: `calculate_min_max_metrics` does NOT skip
degenerate corners.  With nominal `(1, 1, 1)` and `tol_R = 2` (200%),
the corner `R = 1·(1-2) = -1 ≤ 0` is degenerate, yet its quality
factor `-1` becomes the reported minimum of the Q range `(-1, 1/3)` —
a metric contribution from a degenerate corner, refuting the claim
for the function at rlc_theory.py lines 243-274. -/
theorem C4_counterexample :
    (calculate_min_max_metrics 1 1 1 2 0 0).Q = (-1, 1 / 3) := by
  norm_num [calculate_min_max_metrics, cornerTriples, calculate_nominal_metrics,
    npMin, npMax, Real.sqrt_one, min_def, max_def]

/-- C4 amended: the degenerate-corner skipping holds in
`simulate_response_with_tolerances` (but not in
`calculate_min_max_metrics`): corners with any component ≤ 0
contribute neither to the metric lists nor to the envelope curves —
the accumulated metric list is exactly the image of the surviving
(all-positive) corners, both envelopes are folds over the surviving
corners only, and when no corner survives the metric ranges fall back
to `(nominal, nominal)`. -/
theorem C4_simulate_skips_degenerate (R L C tR tL tC V f : ℝ) :
    simulateMetricsList R L C tR tL tC =
      ((cornerTriples R L C tR tL tC).filter
        fun t => decide (0 < t.1 ∧ 0 < t.2.1 ∧ 0 < t.2.2)).map
        (fun t => compute_metrics t.1 t.2.1 t.2.2) ∧
    simulateMinCurve R L C tR tL tC V f =
      ((cornerTriples R L C tR tL tC).filter
        fun t => decide (0 < t.1 ∧ 0 < t.2.1 ∧ 0 < t.2.2)).foldl
        (fun acc t => min acc (transfer_gain f t.1 t.2.1 t.2.2 * V))
        (simulateNomCurve R L C V f) ∧
    simulateMaxCurve R L C tR tL tC V f =
      ((cornerTriples R L C tR tL tC).filter
        fun t => decide (0 < t.1 ∧ 0 < t.2.1 ∧ 0 < t.2.2)).foldl
        (fun acc t => max acc (transfer_gain f t.1 t.2.1 t.2.2 * V))
        (simulateNomCurve R L C V f) ∧
    (simulateMetricsList R L C tR tL tC = [] →
      simulateMetricRanges R L C tR tL tC =
        { f0 := ((compute_metrics R L C).f0, (compute_metrics R L C).f0)
          Q := ((compute_metrics R L C).Q, (compute_metrics R L C).Q)
          BW := ((compute_metrics R L C).BW, (compute_metrics R L C).BW)
          f1 := ((compute_metrics R L C).f1, (compute_metrics R L C).f1)
          f2 := ((compute_metrics R L C).f2, (compute_metrics R L C).f2) }) := by
  have hfil : ∀ l : List (ℝ × ℝ × ℝ),
      (l.filter fun t => decide ¬ (t.1 ≤ 0 ∨ t.2.1 ≤ 0 ∨ t.2.2 ≤ 0)) =
      (l.filter fun t => decide (0 < t.1 ∧ 0 < t.2.1 ∧ 0 < t.2.2)) := by
    intro l
    apply List.filter_congr
    intro t _
    apply decide_eq_decide.mpr
    push_neg
    rfl
  refine ⟨?_, ?_, ?_, ?_⟩
  · rw [simulateMetricsList,
      foldl_skip_append_eq_map (fun t : ℝ × ℝ × ℝ => t.1 ≤ 0 ∨ t.2.1 ≤ 0 ∨ t.2.2 ≤ 0)
        (fun t => compute_metrics t.1 t.2.1 t.2.2)
        (cornerTriples R L C tR tL tC) [], hfil]
    simp
  · rw [simulateMinCurve,
      foldl_skip_eq_foldl_filter (fun t : ℝ × ℝ × ℝ => t.1 ≤ 0 ∨ t.2.1 ≤ 0 ∨ t.2.2 ≤ 0)
        (fun acc t => min acc (transfer_gain f t.1 t.2.1 t.2.2 * V))
        (cornerTriples R L C tR tL tC) (simulateNomCurve R L C V f), hfil]
  · rw [simulateMaxCurve,
      foldl_skip_eq_foldl_filter (fun t : ℝ × ℝ × ℝ => t.1 ≤ 0 ∨ t.2.1 ≤ 0 ∨ t.2.2 ≤ 0)
        (fun acc t => max acc (transfer_gain f t.1 t.2.1 t.2.2 * V))
        (cornerTriples R L C tR tL tC) (simulateNomCurve R L C V f), hfil]
  · intro hnil
    simp [simulateMetricRanges, hnil]

/-- C4 witness: the skipping equalities at the concrete input
`(R, L, C) = (0, 1, 1)` with zero tolerances, where every corner has
`R = 0` and is skipped, so the metric list is empty and the ranges fall
back to `(nominal, nominal)`. -/
theorem C4_simulate_skips_degenerate_witness :
    simulateMetricRanges 0 1 1 0 0 0 =
      { f0 := ((compute_metrics 0 1 1).f0, (compute_metrics 0 1 1).f0)
        Q := ((compute_metrics 0 1 1).Q, (compute_metrics 0 1 1).Q)
        BW := ((compute_metrics 0 1 1).BW, (compute_metrics 0 1 1).BW)
        f1 := ((compute_metrics 0 1 1).f1, (compute_metrics 0 1 1).f1)
        f2 := ((compute_metrics 0 1 1).f2, (compute_metrics 0 1 1).f2) } :=
  (C4_simulate_skips_degenerate 0 1 1 0 0 0 1 1).2.2.2
    (by norm_num [simulateMetricsList, cornerTriples])

/-- C5: with all three tolerances zero the corner analysis collapses:
`calculate_min_max_metrics` returns `(nominal, nominal)` for every
metric, the simulator's metric ranges also collapse to the nominal
value, and the min and max envelope curves of
`simulate_response_with_tolerances` equal the nominal curve at every
frequency. -/
theorem C5_zero_tolerance (R L C V f : ℝ)
    (hR : 0 < R) (hL : 0 < L) (hC : 0 < C) :
    calculate_min_max_metrics R L C 0 0 0 =
      { f0 := ((calculate_nominal_metrics R L C).f0, (calculate_nominal_metrics R L C).f0)
        Q := ((calculate_nominal_metrics R L C).Q, (calculate_nominal_metrics R L C).Q)
        BW := ((calculate_nominal_metrics R L C).BW, (calculate_nominal_metrics R L C).BW)
        f1 := ((calculate_nominal_metrics R L C).f1, (calculate_nominal_metrics R L C).f1)
        f2 := ((calculate_nominal_metrics R L C).f2, (calculate_nominal_metrics R L C).f2) } ∧
    simulateMetricRanges R L C 0 0 0 =
      { f0 := ((compute_metrics R L C).f0, (compute_metrics R L C).f0)
        Q := ((compute_metrics R L C).Q, (compute_metrics R L C).Q)
        BW := ((compute_metrics R L C).BW, (compute_metrics R L C).BW)
        f1 := ((compute_metrics R L C).f1, (compute_metrics R L C).f1)
        f2 := ((compute_metrics R L C).f2, (compute_metrics R L C).f2) } ∧
    simulateMinCurve R L C 0 0 0 V f = simulateNomCurve R L C V f ∧
    simulateMaxCurve R L C 0 0 0 V f = simulateNomCurve R L C V f := by
  have hc : cornerTriples R L C 0 0 0 =
      [(R, L, C), (R, L, C), (R, L, C), (R, L, C),
       (R, L, C), (R, L, C), (R, L, C), (R, L, C)] := by
    simp [cornerTriples]
  have hpos : ¬(R ≤ 0 ∨ L ≤ 0 ∨ C ≤ 0) := by
    push_neg
    exact ⟨hR, hL, hC⟩
  refine ⟨?_, ?_, ?_, ?_⟩
  · simp [calculate_min_max_metrics, hc, npMin, npMax, min_self, max_self]
  · simp [simulateMetricRanges, simulateMetricsList, hc, hpos, npMin, npMax,
      min_self, max_self]
  · simp [simulateMinCurve, hc, hpos, simulateNomCurve, min_self]
  · simp [simulateMaxCurve, hc, hpos, simulateNomCurve, max_self]

/-- C5 witness: the collapse at `R = L = C = 1`, `V_in = 2`,
evaluated at the frequency `f = 5`. -/
theorem C5_zero_tolerance_witness :
    calculate_min_max_metrics 1 1 1 0 0 0 =
      { f0 := ((calculate_nominal_metrics 1 1 1).f0, (calculate_nominal_metrics 1 1 1).f0)
        Q := ((calculate_nominal_metrics 1 1 1).Q, (calculate_nominal_metrics 1 1 1).Q)
        BW := ((calculate_nominal_metrics 1 1 1).BW, (calculate_nominal_metrics 1 1 1).BW)
        f1 := ((calculate_nominal_metrics 1 1 1).f1, (calculate_nominal_metrics 1 1 1).f1)
        f2 := ((calculate_nominal_metrics 1 1 1).f2, (calculate_nominal_metrics 1 1 1).f2) } ∧
    simulateMetricRanges 1 1 1 0 0 0 =
      { f0 := ((compute_metrics 1 1 1).f0, (compute_metrics 1 1 1).f0)
        Q := ((compute_metrics 1 1 1).Q, (compute_metrics 1 1 1).Q)
        BW := ((compute_metrics 1 1 1).BW, (compute_metrics 1 1 1).BW)
        f1 := ((compute_metrics 1 1 1).f1, (compute_metrics 1 1 1).f1)
        f2 := ((compute_metrics 1 1 1).f2, (compute_metrics 1 1 1).f2) } ∧
    simulateMinCurve 1 1 1 0 0 0 2 5 = simulateNomCurve 1 1 1 2 5 ∧
    simulateMaxCurve 1 1 1 0 0 0 2 5 = simulateNomCurve 1 1 1 2 5 :=
  C5_zero_tolerance 1 1 1 2 5 (by norm_num) (by norm_num) (by norm_num)

/-- `sqrt (1 / x^2) = 1 / x` for positive `x`. -/
theorem sqrt_one_div_sq {x : ℝ} (hx : 0 < x) :
    Real.sqrt (1 / x ^ 2) = 1 / x := by
  rw [one_div, one_div, Real.sqrt_inv, Real.sqrt_sq hx.le]

/-- `sqrt (L/C) * sqrt (L*C) = L` for positive `L`, `C`. -/
theorem sqrt_div_mul_sqrt_mul {L C : ℝ} (hL : 0 < L) (hC : 0 < C) :
    Real.sqrt (L / C) * Real.sqrt (L * C) = L := by
  rw [← Real.sqrt_mul (by positivity)]
  have h : L / C * (L * C) = L ^ 2 := by
    field_simp
    ring
  rw [h, Real.sqrt_sq hL.le]

/-- `sqrt (L*C) / sqrt (L/C) = C` for positive `L`, `C`. -/
theorem sqrt_mul_div_sqrt_div {L C : ℝ} (hL : 0 < L) (hC : 0 < C) :
    Real.sqrt (L * C) / Real.sqrt (L / C) = C := by
  rw [← Real.sqrt_div (by positivity)]
  have h : L * C / (L / C) = C ^ 2 := by
    field_simp
    ring
  rw [h, Real.sqrt_sq hC.le]

/-- C1: round-trip of metrics and resolution.  For all `R, L, C > 0`,
computing `(f0, Q)` with `calculate_nominal_metrics` and feeding them
to `solve_rlc_from_f0_Q` with known component R succeeds and returns
the original `L` and `C` exactly (real arithmetic). -/
theorem C1_round_trip (R L C : ℝ) (hR : 0 < R) (hL : 0 < L) (hC : 0 < C) :
    ∃ s, solve_rlc_from_f0_Q (calculate_nominal_metrics R L C).f0
        (calculate_nominal_metrics R L C).Q KnownType.R R = Except.ok s ∧
      s.L = L ∧ s.C = C := by
  have hsLC : 0 < Real.sqrt (L * C) := Real.sqrt_pos.mpr (by positivity)
  have hsLdC : 0 < Real.sqrt (L / C) := Real.sqrt_pos.mpr (by positivity)
  have hπ : 0 < π := Real.pi_pos
  have hf0 : (calculate_nominal_metrics R L C).f0 =
      1 / Real.sqrt (L * C) / (2 * π) := by
    simp [calculate_nominal_metrics]
  have hQ : (calculate_nominal_metrics R L C).Q =
      (1 / R) * Real.sqrt (L / C) := by
    simp [calculate_nominal_metrics]
  have hf0pos : 0 < (calculate_nominal_metrics R L C).f0 := by
    rw [hf0]
    positivity
  have hQpos : 0 < (calculate_nominal_metrics R L C).Q := by
    rw [hQ]
    positivity
  have homega : 2 * π * (calculate_nominal_metrics R L C).f0 =
      1 / Real.sqrt (L * C) := by
    rw [hf0]
    field_simp
    ring
  have hp : 1 / (2 * π * (calculate_nominal_metrics R L C).f0) ^ 2 = L * C := by
    rw [homega, div_pow, one_pow, one_div_one_div, Real.sq_sqrt (by positivity)]
  have hQR : (calculate_nominal_metrics R L C).Q * R = Real.sqrt (L / C) := by
    rw [hQ]
    field_simp
    ring
  have h1 : ¬((calculate_nominal_metrics R L C).f0 ≤ 0) := not_le.mpr hf0pos
  have h2 : ¬((calculate_nominal_metrics R L C).Q ≤ 0) := not_le.mpr hQpos
  have h3 : ¬(R ≤ 0) := not_le.mpr hR
  rw [solve_rlc_from_f0_Q, if_neg h1, if_neg h2, if_neg h3]
  simp only []
  rw [hp, hQR, sqrt_div_mul_sqrt_mul hL hC, sqrt_mul_div_sqrt_div hL hC,
    solveFinish, if_neg h3]
  exact ⟨_, rfl, rfl, rfl⟩

/-- C1 witness: the round trip at `R = L = C = 1`. -/
theorem C1_round_trip_witness :
    ∃ s, solve_rlc_from_f0_Q (calculate_nominal_metrics 1 1 1).f0
        (calculate_nominal_metrics 1 1 1).Q KnownType.R 1 = Except.ok s ∧
      s.L = 1 ∧ s.C = 1 :=
  C1_round_trip 1 1 1 (by norm_num) (by norm_num) (by norm_num)

/-- C10: for every valid input (`f0 > 0`, `Q > 0`, known value `> 0`,
any known kind), `solve_rlc_from_f0_Q` succeeds and the recomputed
`f0_calc` and `Q_calc` equal the inputs exactly in real arithmetic:
every branch constructs a triple with `L·C = 1/ω0²` and
`sqrt(L/C) = Q·R`. -/
theorem C10_self_consistency (f0 Q : ℝ) (kt : KnownType) (kv : ℝ)
    (hf0 : 0 < f0) (hQ : 0 < Q) (hkv : 0 < kv) :
    ∃ s, solve_rlc_from_f0_Q f0 Q kt kv = Except.ok s ∧
      s.f0_calc = f0 ∧ s.Q_calc = Q := by
  have hπ : 0 < π := Real.pi_pos
  have hw : 0 < 2 * π * f0 := by positivity
  have h1 : ¬(f0 ≤ 0) := not_le.mpr hf0
  have h2 : ¬(Q ≤ 0) := not_le.mpr hQ
  have h3 : ¬(kv ≤ 0) := not_le.mpr hkv
  cases kt with
  | R =>
      rw [solve_rlc_from_f0_Q, if_neg h1, if_neg h2, if_neg h3]
      simp only []
      rw [sqrt_one_div_sq hw, solveFinish, if_neg h3]
      refine ⟨_, rfl, ?_, ?_⟩
      · show 1 / (2 * π * Real.sqrt
          (Q * kv * (1 / (2 * π * f0)) * (1 / (2 * π * f0) / (Q * kv)))) = f0
        have hprod : Q * kv * (1 / (2 * π * f0)) * (1 / (2 * π * f0) / (Q * kv)) =
            1 / (2 * π * f0) ^ 2 := by
          field_simp
          ring
        rw [hprod, sqrt_one_div_sq hw]
        field_simp
      · show (1 / kv) * Real.sqrt
          (Q * kv * (1 / (2 * π * f0)) / (1 / (2 * π * f0) / (Q * kv))) = Q
        have hdiv : Q * kv * (1 / (2 * π * f0)) / (1 / (2 * π * f0) / (Q * kv)) =
            (Q * kv) ^ 2 := by
          field_simp
          ring
        rw [hdiv, Real.sqrt_sq (by positivity)]
        field_simp
  | L =>
      rw [solve_rlc_from_f0_Q, if_neg h1, if_neg h2, if_neg h3]
      simp only []
      have hC : (0 : ℝ) < 1 / ((2 * π * f0) ^ 2 * kv) := by positivity
      rw [if_neg (not_le.mpr hC), solveFinish,
        if_neg (not_le.mpr (by positivity :
          (0 : ℝ) < (1 / Q) * Real.sqrt (kv / (1 / ((2 * π * f0) ^ 2 * kv)))))]
      refine ⟨_, rfl, ?_, ?_⟩
      · show 1 / (2 * π * Real.sqrt (kv * (1 / ((2 * π * f0) ^ 2 * kv)))) = f0
        have hprod : kv * (1 / ((2 * π * f0) ^ 2 * kv)) = 1 / (2 * π * f0) ^ 2 := by
          field_simp
          ring
        rw [hprod, sqrt_one_div_sq hw]
        field_simp
      · show (1 / ((1 / Q) * Real.sqrt (kv / (1 / ((2 * π * f0) ^ 2 * kv))))) *
          Real.sqrt (kv / (1 / ((2 * π * f0) ^ 2 * kv))) = Q
        have hs : 0 < Real.sqrt (kv / (1 / ((2 * π * f0) ^ 2 * kv))) := by positivity
        field_simp
  | C =>
      rw [solve_rlc_from_f0_Q, if_neg h1, if_neg h2, if_neg h3]
      simp only []
      have hLpos : (0 : ℝ) < 1 / ((2 * π * f0) ^ 2 * kv) := by positivity
      rw [if_neg (not_le.mpr hLpos), solveFinish,
        if_neg (not_le.mpr (by positivity :
          (0 : ℝ) < (1 / Q) * Real.sqrt (1 / ((2 * π * f0) ^ 2 * kv) / kv)))]
      refine ⟨_, rfl, ?_, ?_⟩
      · show 1 / (2 * π * Real.sqrt (1 / ((2 * π * f0) ^ 2 * kv) * kv)) = f0
        have hprod : 1 / ((2 * π * f0) ^ 2 * kv) * kv = 1 / (2 * π * f0) ^ 2 := by
          field_simp
          ring
        rw [hprod, sqrt_one_div_sq hw]
        field_simp
      · show (1 / ((1 / Q) * Real.sqrt (1 / ((2 * π * f0) ^ 2 * kv) / kv))) *
          Real.sqrt (1 / ((2 * π * f0) ^ 2 * kv) / kv) = Q
        have hs : 0 < Real.sqrt (1 / ((2 * π * f0) ^ 2 * kv) / kv) := by positivity
        field_simp

/-- C10 witness: self-consistency at `f0 = 1`, `Q = 1`, known L = 1. -/
theorem C10_self_consistency_witness :
    ∃ s, solve_rlc_from_f0_Q 1 1 KnownType.L 1 = Except.ok s ∧
      s.f0_calc = 1 ∧ s.Q_calc = 1 :=
  C10_self_consistency 1 1 KnownType.L 1 (by norm_num) (by norm_num) (by norm_num)

/-- `1 - u/R ≤ R/(R+u)` for positive `R` and nonnegative `u`. -/
theorem one_sub_div_le_div_add {R u : ℝ} (hR : 0 < R) (hu : 0 ≤ u) :
    1 - u / R ≤ R / (R + u) := by
  rw [le_div_iff (by linarith)]
  have h : (1 - u / R) * (R + u) = R - u ^ 2 / R := by
    field_simp
    ring
  rw [h]
  have : 0 ≤ u ^ 2 / R := by positivity
  linarith

/-- `sqrt (R² + u²) ≤ R + u²/(2R)` for positive `R`. -/
theorem sqrt_sq_add_sq_le {R u : ℝ} (hR : 0 < R) :
    Real.sqrt (R ^ 2 + u ^ 2) ≤ R + u ^ 2 / (2 * R) := by
  have hnn : 0 ≤ R + u ^ 2 / (2 * R) := by positivity
  have hsq : R ^ 2 + u ^ 2 ≤ (R + u ^ 2 / (2 * R)) ^ 2 := by
    have hexp : (R + u ^ 2 / (2 * R)) ^ 2 =
        R ^ 2 + u ^ 2 + (u ^ 2 / (2 * R)) ^ 2 := by
      field_simp
      ring
    nlinarith [sq_nonneg (u ^ 2 / (2 * R))]
  calc Real.sqrt (R ^ 2 + u ^ 2) ≤ Real.sqrt ((R + u ^ 2 / (2 * R)) ^ 2) :=
        Real.sqrt_le_sqrt hsq
    _ = R + u ^ 2 / (2 * R) := Real.sqrt_sq hnn

/-- C8: at the resonance frequency `f0 = 1/(2π·sqrt(LC))` the
transfer-function magnitude `get_transfer_function` is at most 1 and
differs from 1 by at most `(ε·L/C)²/(2R²)` with `ε = 1e-15` — the
reactances cancel exactly and only the epsilon guard added to the
capacitive-reactance denominator keeps the gain below the exact unity
value `R/sqrt(R²+0²) = 1`. -/
theorem C8_unity_gain_at_resonance (R L C : ℝ)
    (hR : 0 < R) (hL : 0 < L) (hC : 0 < C) :
    get_transfer_function (1 / (2 * π * Real.sqrt (L * C))) R L C ≤ 1 ∧
    1 - (epsTransfer * L / C) ^ 2 / (2 * R ^ 2) ≤
      get_transfer_function (1 / (2 * π * Real.sqrt (L * C))) R L C := by
  have hπ : 0 < π := Real.pi_pos
  have hs : 0 < Real.sqrt (L * C) := Real.sqrt_pos.mpr (by positivity)
  have hss : Real.sqrt (L * C) ^ 2 = L * C := Real.sq_sqrt (by positivity)
  have hε : 0 < epsTransfer := by norm_num [epsTransfer]
  set s := Real.sqrt (L * C) with hsdef
  set d := C / s with hddef
  have hd : 0 < d := by positivity
  set ε := epsTransfer
  set δ := 1 / d - 1 / (d + ε) with hδdef
  have hgain : get_transfer_function (1 / (2 * π * s)) R L C =
      R / Real.sqrt (R ^ 2 + δ ^ 2) := by
    simp only [get_transfer_function]
    have hw : 2 * π * (1 / (2 * π * s)) = 1 / s := by field_simp
    rw [hw]
    have h1 : 1 / s * C = d := by
      rw [hddef]
      ring
    have hss2 : s * s = L * C := by
      rw [← hss]
      ring
    have h2 : 1 / s * L = 1 / d := by
      rw [hddef, one_div_div, show 1 / s * L = L / s by ring,
        div_eq_div_iff hs.ne' hC.ne']
      exact hss2.symm
    rw [h1, h2]
  have hδeq : δ = ε / (d * (d + ε)) := by
    rw [hδdef]
    field_simp
  have hδ0 : 0 ≤ δ := by
    rw [hδeq]
    positivity
  have hδle : δ ≤ ε * L / C := by
    have hstep : ε / (d * (d + ε)) ≤ ε / (d * d) := by
      gcongr
      linarith
    have hss2 : s * s = L * C := by
      rw [← hss]
      ring
    have hdd : ε / (d * d) = ε * L / C := by
      rw [hddef]
      field_simp
      linear_combination ε * C * hss2
    rw [hδeq]
    linarith [hstep, hdd.le, hdd.ge]
  have hZpos : 0 < Real.sqrt (R ^ 2 + δ ^ 2) :=
    Real.sqrt_pos.mpr (by positivity)
  constructor
  · rw [hgain, div_le_one hZpos]
    calc R = Real.sqrt (R ^ 2) := (Real.sqrt_sq hR.le).symm
      _ ≤ Real.sqrt (R ^ 2 + δ ^ 2) := Real.sqrt_le_sqrt (by nlinarith)
  · rw [hgain]
    have hub : Real.sqrt (R ^ 2 + δ ^ 2) ≤ R + δ ^ 2 / (2 * R) :=
      sqrt_sq_add_sq_le hR
    have hchain1 : R / (R + δ ^ 2 / (2 * R)) ≤ R / Real.sqrt (R ^ 2 + δ ^ 2) := by
      gcongr
    have hchain2 : 1 - (δ ^ 2 / (2 * R)) / R ≤ R / (R + δ ^ 2 / (2 * R)) :=
      one_sub_div_le_div_add hR (by positivity)
    have hu : (δ ^ 2 / (2 * R)) / R = δ ^ 2 / (2 * R ^ 2) := by
      rw [div_div]
      ring_nf
    have hsqle : δ ^ 2 ≤ (ε * L / C) ^ 2 := pow_le_pow_left hδ0 hδle 2
    have hmono : 1 - (ε * L / C) ^ 2 / (2 * R ^ 2) ≤ 1 - δ ^ 2 / (2 * R ^ 2) := by
      have h2R : (0 : ℝ) < 2 * R ^ 2 := by positivity
      have h := (div_le_div_right h2R).mpr hsqle
      linarith
    calc 1 - (ε * L / C) ^ 2 / (2 * R ^ 2)
        ≤ 1 - δ ^ 2 / (2 * R ^ 2) := hmono
      _ = 1 - (δ ^ 2 / (2 * R)) / R := by rw [hu]
      _ ≤ R / (R + δ ^ 2 / (2 * R)) := hchain2
      _ ≤ R / Real.sqrt (R ^ 2 + δ ^ 2) := hchain1

/-- C8 witness: the bounds at `R = L = C = 1`. -/
theorem C8_unity_gain_witness :
    get_transfer_function (1 / (2 * π * Real.sqrt (1 * 1))) 1 1 1 ≤ 1 ∧
    1 - (epsTransfer * 1 / 1) ^ 2 / (2 * 1 ^ 2) ≤
      get_transfer_function (1 / (2 * π * Real.sqrt (1 * 1))) 1 1 1 :=
  C8_unity_gain_at_resonance 1 1 1 (by norm_num) (by norm_num) (by norm_num)

/-- The ranking relation of the claim: ascending relative error,
ties broken by descending Q (absent Q read as 0). -/
def designRank (a b : DesignCandidate) : Prop :=
  a.error_pct < b.error_pct ∨
    (a.error_pct = b.error_pct ∧ b.Q.getD 0 ≤ a.Q.getD 0)

/-- The sort comparator `designLE` is transitive. -/
theorem designLE_trans (a b c : DesignCandidate)
    (hab : designLE a b = true) (hbc : designLE b c = true) :
    designLE a c = true := by
  simp only [designLE, decide_eq_true_eq] at hab hbc ⊢
  rcases hab with h1 | ⟨h1, h1q⟩
  · rcases hbc with h2 | ⟨h2, _⟩
    · exact Or.inl (h1.trans h2)
    · exact Or.inl (lt_of_lt_of_eq h1 h2)
  · rcases hbc with h2 | ⟨h2, h2q⟩
    · exact Or.inl (lt_of_eq_of_lt h1 h2)
    · exact Or.inr ⟨h1.trans h2, le_trans h1q h2q⟩

/-- The sort comparator `designLE` is total. -/
theorem designLE_total (a b : DesignCandidate) :
    (designLE a b || designLE b a) = true := by
  simp only [designLE, Bool.or_eq_true, decide_eq_true_eq]
  rcases lt_trichotomy a.error_pct b.error_pct with h | h | h
  · exact Or.inl (Or.inl h)
  · rcases le_total (-(a.Q.getD 0)) (-(b.Q.getD 0)) with hq | hq
    · exact Or.inl (Or.inr ⟨h, hq⟩)
    · exact Or.inr (Or.inr ⟨h.symm, hq⟩)
  · exact Or.inr (Or.inl h)

/-- Sorting with `designLE` and truncating yields a list sorted for the
ranking relation, of length at most `n`. -/
theorem take_mergeSort_designLE (l : List DesignCandidate) (n : ℕ) :
    ((l.mergeSort designLE).take n).Sorted designRank ∧
    ((l.mergeSort designLE).take n).length ≤ n := by
  constructor
  · have hPW := List.sorted_mergeSort designLE_trans designLE_total l
    have hPW2 := hPW.sublist (List.take_sublist n (l.mergeSort designLE))
    refine hPW2.imp ?_
    intro a b h
    simp only [designLE, decide_eq_true_eq, neg_le_neg_iff] at h
    exact h
  · rw [List.length_take]
    exact min_le_left _ _

/-- C6: for every call of `design_rlc_for_target_f0` with a positive
target and candidate grids that are nonempty after the positivity
filter, the function returns `ok` with a list (possibly empty — an
empty result set is not an error) that is sorted ascending by relative
f0 error with ties broken by descending Q (absent Q read as 0 for
tie-breaking) and contains at most `max_results` entries.  (The
embedded search is a pure function of its arguments, so the supplied
candidate grids are never mutated.) -/
theorem C6_design_ranked (target : ℝ) (R_fixed : Option ℝ)
    (Lc Cc : Option (List ℝ)) (maxres : ℕ) (maxerr : Option ℝ)
    (htarget : 0 < target)
    (hLne : ((Lc.getD defaultLGrid).filter fun x => decide (0 < x)).isEmpty = false)
    (hCne : ((Cc.getD defaultCGrid).filter fun x => decide (0 < x)).isEmpty = false) :
    ∃ out, design_rlc_for_target_f0 target R_fixed Lc Cc maxres maxerr =
        Except.ok out ∧
      out.length ≤ maxres ∧ out.Sorted designRank := by
  rw [design_rlc_for_target_f0, if_neg (not_le.mpr htarget)]
  simp only [hLne, hCne, Bool.or_self, Bool.false_eq_true, if_false]
  refine ⟨_, rfl, ?_, ?_⟩
  · exact (take_mergeSort_designLE _ maxres).2
  · exact (take_mergeSort_designLE _ maxres).1

/-- C6 witness: the ranked search at `target = 1` with singleton
candidate grids `L ∈ {1}`, `C ∈ {1}` and `max_results = 5`. -/
theorem C6_design_ranked_witness :
    (0 : ℝ) < 1 ∧
    (((some [(1 : ℝ)]).getD defaultLGrid).filter fun x => decide (0 < x)).isEmpty
      = false ∧
    (((some [(1 : ℝ)]).getD defaultCGrid).filter fun x => decide (0 < x)).isEmpty
      = false ∧
    ∃ out, design_rlc_for_target_f0 1 none (some [1]) (some [1]) 5 none =
        Except.ok out ∧
      out.length ≤ 5 ∧ out.Sorted designRank := by
  have hfil : (([(1 : ℝ)]).filter fun x => decide (0 < x)) = [1] := by
    rw [List.filter_cons, List.filter_nil]
    rw [decide_eq_true (by norm_num : (0 : ℝ) < 1)]
    simp
  refine ⟨by norm_num, ?_, ?_, ?_⟩
  · simp [hfil]
  · simp [hfil]
  · exact C6_design_ranked 1 none (some [1]) (some [1]) 5 none (by norm_num)
      (by simp [hfil]) (by simp [hfil])

end

end RLCAnalyzer
